import Mathlib

/-!
Verification of the bounded concurrent task-execution and ephemeral-file
subsystem of the `tools` repository (`src/core/task_queue.py` and
`src/core/file_handler.py`), as a shallow embedding in Lean 4.

The `TaskQueue` (`task_queue.py`) is modelled as a labelled transition
system over a state carrying the Python object's counters
(`_queued_tasks`, `_active_tasks`), the semaphore's available permits,
the FIFO queue of coroutines waiting on `asyncio.Semaphore.acquire`,
the set of tasks currently executing inside the semaphore block, and a
log of the order in which tasks were admitted.  Tasks are named by their
submission index.  `asyncio.Semaphore` keeps its waiters in a FIFO deque
and wakes them in arrival order, which the `acquire` transition models by
only ever admitting the head of the wait queue.  Whether a task's body
raises an ordinary `Exception` is given by the environment (`fails`);
the `complete` transition performs, in one atomic step (the Python code
between two suspension points), the `finally` decrement of
`_active_tasks`, the semaphore release of `__aexit__`, and — on failure
only — the `except Exception` branch's extra decrement of
`_queued_tasks`.  Counters are `Int` because Python integers are signed.

The `FileHandler` (`file_handler.py`) is modelled with explicit state:
the in-memory index `self._files` is an insertion-ordered association
list (Python `dict`), and the backing directory `temp_files/` is an
association list from paths to file content plus modification time.
Timestamps are integer seconds; `timedelta(minutes=10)` is 600.
-/

namespace ToolsSpec

/-! ## `task_queue.py`: the `TaskQueue` class -/

/-- `MAX_CONCURRENT_TASKS = 3` in `task_queue.py`. -/
def MAX_CONCURRENT_TASKS : Nat := 3

/-- Environment of one `TaskQueue` run: the constructor argument
`max_concurrent` and, for every submission index, whether that task's
body raises an ordinary `Exception` when executed. -/
structure QConfig where
  max_concurrent : Nat
  fails : Nat → Bool

/-- A snapshot of the `TaskQueue` object together with the scheduler
state of all in-flight `submit` coroutines.  `waiting` holds the
submission indices of coroutines suspended in
`asyncio.Semaphore.acquire`, oldest first; `running` holds those
executing inside the `async with` block; `admitted` is the history of
admissions, in order; `sem` is the semaphore's count of free permits;
`queued_count` and `active_count` are the Python fields
`_queued_tasks` and `_active_tasks`. -/
structure QState where
  submitted : Nat
  waiting : List Nat
  running : List Nat
  admitted : List Nat
  sem : Nat
  queued_count : Int
  active_count : Int
deriving DecidableEq

/-- The state of a freshly constructed `TaskQueue(max_concurrent)`. -/
def initState (cfg : QConfig) : QState :=
  { submitted := 0, waiting := [], running := [], admitted := [],
    sem := cfg.max_concurrent, queued_count := 0, active_count := 0 }

/-- One scheduler step of the system of `submit` coroutines.

* `submit`: a new call enters `TaskQueue.submit`: it runs
  `self._queued_tasks += 1` and suspends in `acquire`, joining the back
  of the semaphore's FIFO waiter queue.
* `acquire`: the semaphore has a free permit and hands it to the oldest
  waiter; the coroutine resumes and runs `self._queued_tasks -= 1;
  self._active_tasks += 1` with no intervening suspension point.
* `complete`: a running task's body finishes (returns, or raises when
  `cfg.fails t`); the `finally` block runs `self._active_tasks -= 1`,
  `__aexit__` releases the permit, and — only when the body raised an
  `Exception` — the `except Exception` clause additionally runs
  `self._queued_tasks -= 1` before re-raising. -/
inductive QStep (cfg : QConfig) : QState → QState → Prop where
  | submit (s : QState) :
      QStep cfg s { s with
        submitted := s.submitted + 1,
        waiting := s.waiting ++ [s.submitted],
        queued_count := s.queued_count + 1 }
  | acquire (s : QState) (t : Nat) (rest : List Nat)
      (hw : s.waiting = t :: rest) (hs : 0 < s.sem) :
      QStep cfg s { s with
        waiting := rest,
        running := s.running ++ [t],
        admitted := s.admitted ++ [t],
        sem := s.sem - 1,
        queued_count := s.queued_count - 1,
        active_count := s.active_count + 1 }
  | complete (s : QState) (t : Nat) (ht : t ∈ s.running) :
      QStep cfg s { s with
        running := s.running.erase t,
        sem := s.sem + 1,
        active_count := s.active_count - 1,
        queued_count := if cfg.fails t then s.queued_count - 1 else s.queued_count }

/-- States reachable from a fresh `TaskQueue` by any interleaving of
`submit` calls, admissions and completions. -/
inductive QReachable (cfg : QConfig) : QState → Prop where
  | init : QReachable cfg (initState cfg)
  | step {s s' : QState} (h : QReachable cfg s) (h' : QStep cfg s s') : QReachable cfg s'

/-- One step preserves the counter invariant. -/
theorem qinv_step {cfg : QConfig} {s s' : QState} (hstep : QStep cfg s s')
    (ih1 : s.active_count = (s.running.length : Int))
    (ih2 : s.sem + s.running.length = cfg.max_concurrent) :
    s'.active_count = (s'.running.length : Int) ∧
      s'.sem + s'.running.length = cfg.max_concurrent := by
  cases hstep with
  | submit => exact ⟨ih1, ih2⟩
  | acquire t rest hw hs =>
    refine ⟨?_, ?_⟩
    · show s.active_count + 1 = ((s.running ++ [t]).length : Int)
      simp only [List.length_append, List.length_cons, List.length_nil]
      omega
    · show s.sem - 1 + (s.running ++ [t]).length = cfg.max_concurrent
      simp only [List.length_append, List.length_cons, List.length_nil]
      omega
  | complete t ht =>
    have hlen : (s.running.erase t).length = s.running.length - 1 :=
      List.length_erase_of_mem ht
    have hpos : 0 < s.running.length := List.length_pos.mpr (List.ne_nil_of_mem ht)
    refine ⟨?_, ?_⟩
    · show s.active_count - 1 = ((s.running.erase t).length : Int)
      rw [hlen]; omega
    · show s.sem + 1 + (s.running.erase t).length = cfg.max_concurrent
      rw [hlen]; omega

/-- Structural invariant tying the counters to the scheduler state:
`_active_tasks` counts exactly the tasks inside the `async with` block,
and permits plus holders add up to the semaphore's capacity. -/
theorem qinv_reachable {cfg : QConfig} {s : QState} (h : QReachable cfg s) :
    s.active_count = (s.running.length : Int) ∧
      s.sem + s.running.length = cfg.max_concurrent := by
  induction h with
  | init => simp [initState]
  | step h h' ih => exact qinv_step h' ih.1 ih.2

/-- C1: in every state reachable by any sequence of `submit` operations
(interleaved with admissions and completions), the `TaskQueue`'s active
count satisfies `0 ≤ active_count ≤ max_concurrent`; in particular, even
when more than `max_concurrent` long-running tasks have been submitted,
the observed active count never exceeds `max_concurrent`. -/
theorem taskQueue_active_count_bounded (cfg : QConfig) (s : QState)
    (h : QReachable cfg s) :
    0 ≤ s.active_count ∧ s.active_count ≤ (cfg.max_concurrent : Int) := by
  obtain ⟨h1, h2⟩ := qinv_reachable h
  omega

/-- Witness for C1: with `max_concurrent = 3`, submitting four
long-running tasks and admitting three of them reaches a state with
`active_count = 3`, one task still waiting, and the bound holding. -/
theorem taskQueue_active_count_bounded_witness :
    0 ≤ (QState.mk 4 [3] [0, 1, 2] [0, 1, 2] 0 1 3).active_count ∧
      (QState.mk 4 [3] [0, 1, 2] [0, 1, 2] 0 1 3).active_count ≤
        ((QConfig.mk 3 (fun _ => false)).max_concurrent : Int) := by
  have h0 : QReachable (QConfig.mk 3 (fun _ => false))
      (initState (QConfig.mk 3 (fun _ => false))) := .init
  have h1 : QReachable (QConfig.mk 3 (fun _ => false))
      (QState.mk 1 [0] [] [] 3 1 0) := .step h0 (.submit _)
  have h2 : QReachable (QConfig.mk 3 (fun _ => false))
      (QState.mk 2 [0, 1] [] [] 3 2 0) := .step h1 (.submit _)
  have h3 : QReachable (QConfig.mk 3 (fun _ => false))
      (QState.mk 3 [0, 1, 2] [] [] 3 3 0) := .step h2 (.submit _)
  have h4 : QReachable (QConfig.mk 3 (fun _ => false))
      (QState.mk 4 [0, 1, 2, 3] [] [] 3 4 0) := .step h3 (.submit _)
  have h5 : QReachable (QConfig.mk 3 (fun _ => false))
      (QState.mk 4 [1, 2, 3] [0] [0] 2 3 1) :=
    .step h4 (.acquire _ 0 [1, 2, 3] rfl (by decide))
  have h6 : QReachable (QConfig.mk 3 (fun _ => false))
      (QState.mk 4 [2, 3] [0, 1] [0, 1] 1 2 2) :=
    .step h5 (.acquire _ 1 [2, 3] rfl (by decide))
  have h7 : QReachable (QConfig.mk 3 (fun _ => false))
      (QState.mk 4 [3] [0, 1, 2] [0, 1, 2] 0 1 3) :=
    .step h6 (.acquire _ 2 [3] rfl (by decide))
  exact taskQueue_active_count_bounded _ _ h7

/-- C2 (code bug witness): submitting a single failing task to a fresh
`TaskQueue(1)` reaches, after the task's exception has propagated out of
`submit`, a state with no waiting and no running tasks but
`queued_count = -1`: the `except Exception` clause decrements
`_queued_tasks` a second time for a task that already passed admission
(where `_queued_tasks` was already decremented), so the counter drifts
below the number of tasks actually waiting (zero). -/
theorem taskQueue_failed_task_queued_drift :
    QReachable (QConfig.mk 1 (fun _ => true)) (QState.mk 1 [] [] [0] 1 (-1) 0) ∧
      (QState.mk 1 [] [] [0] 1 (-1) 0).waiting = [] ∧
      (QState.mk 1 [] [] [0] 1 (-1) 0).running = [] ∧
      (QState.mk 1 [] [] [0] 1 (-1) 0).queued_count = -1 := by
  refine ⟨?_, rfl, rfl, rfl⟩
  have h0 : QReachable (QConfig.mk 1 (fun _ => true))
      (initState (QConfig.mk 1 (fun _ => true))) := .init
  have h1 : QReachable (QConfig.mk 1 (fun _ => true))
      (QState.mk 1 [0] [] [] 1 1 0) := .step h0 (.submit _)
  have h2 : QReachable (QConfig.mk 1 (fun _ => true))
      (QState.mk 1 [] [0] [0] 0 0 1) :=
    .step h1 (.acquire _ 0 [] rfl (by decide))
  exact .step h2 (.complete _ 0 (by decide))

/-- One step preserves the order correspondence between the admission
log, the wait queue, and the submission sequence. -/
theorem qfifo_step {cfg : QConfig} {s s' : QState} (hstep : QStep cfg s s')
    (ih : s.admitted ++ s.waiting = List.range s.submitted) :
    s'.admitted ++ s'.waiting = List.range s'.submitted := by
  cases hstep with
  | submit =>
    show s.admitted ++ (s.waiting ++ [s.submitted]) = List.range (s.submitted + 1)
    rw [List.range_succ, ← List.append_assoc, ih]
  | acquire t rest hw hs =>
    show (s.admitted ++ [t]) ++ rest = List.range s.submitted
    rw [List.append_assoc]
    rw [hw] at ih
    exact ih
  | complete t ht => exact ih

/-- The admission log concatenated with the wait queue always lists the
submission indices in order: the semaphore's FIFO waiter queue admits
tasks exactly in arrival order. -/
theorem qfifo_reachable {cfg : QConfig} {s : QState} (h : QReachable cfg s) :
    s.admitted ++ s.waiting = List.range s.submitted := by
  induction h with
  | init => simp [initState]
  | step h h' ih => exact qfifo_step h' ih

/-- C9: tasks are admitted in first-submitted, first-admitted order: in
every reachable state the admission log is exactly `[0, 1, ..., k-1]`
(the first `k` submission indices, in submission order), so the `i`-th
task to begin active execution is the `i`-th task submitted; no
submitter is passed over.  This holds for every `max_concurrent`,
in particular for `max_concurrent = 1`. -/
theorem taskQueue_fifo_admission (cfg : QConfig) (s : QState)
    (h : QReachable cfg s) :
    s.admitted = List.range s.admitted.length := by
  have hf := qfifo_reachable h
  have h2 : s.admitted.length ≤ s.submitted := by
    have hlen := congrArg List.length hf
    simp only [List.length_append, List.length_range] at hlen
    omega
  calc s.admitted
      = (s.admitted ++ s.waiting).take s.admitted.length := (List.take_left _ _).symm
    _ = (List.range s.submitted).take s.admitted.length := by rw [hf]
    _ = List.range (min s.admitted.length s.submitted) := List.take_range _ _
    _ = List.range s.admitted.length := by rw [Nat.min_eq_left h2]

/-- Witness for C9: with `max_concurrent = 1`, submitting three tasks
and running the queue to completion admits them as `[0, 1, 2]`, i.e. in
submission order. -/
theorem taskQueue_fifo_admission_witness :
    (QState.mk 3 [] [2] [0, 1, 2] 0 0 1).admitted =
      List.range (QState.mk 3 [] [2] [0, 1, 2] 0 0 1).admitted.length := by
  have h0 : QReachable (QConfig.mk 1 (fun _ => false))
      (initState (QConfig.mk 1 (fun _ => false))) := .init
  have h1 : QReachable (QConfig.mk 1 (fun _ => false))
      (QState.mk 1 [0] [] [] 1 1 0) := .step h0 (.submit _)
  have h2 : QReachable (QConfig.mk 1 (fun _ => false))
      (QState.mk 2 [0, 1] [] [] 1 2 0) := .step h1 (.submit _)
  have h3 : QReachable (QConfig.mk 1 (fun _ => false))
      (QState.mk 3 [0, 1, 2] [] [] 1 3 0) := .step h2 (.submit _)
  have h4 : QReachable (QConfig.mk 1 (fun _ => false))
      (QState.mk 3 [1, 2] [0] [0] 0 2 1) :=
    .step h3 (.acquire _ 0 [1, 2] rfl (by decide))
  have h5 : QReachable (QConfig.mk 1 (fun _ => false))
      (QState.mk 3 [1, 2] [] [0] 1 2 0) :=
    .step h4 (.complete _ 0 (by decide))
  have h6 : QReachable (QConfig.mk 1 (fun _ => false))
      (QState.mk 3 [2] [1] [0, 1] 0 1 1) :=
    .step h5 (.acquire _ 1 [2] rfl (by decide))
  have h7 : QReachable (QConfig.mk 1 (fun _ => false))
      (QState.mk 3 [2] [] [0, 1] 1 1 0) :=
    .step h6 (.complete _ 1 (by decide))
  have h8 : QReachable (QConfig.mk 1 (fun _ => false))
      (QState.mk 3 [] [2] [0, 1, 2] 0 0 1) :=
    .step h7 (.acquire _ 2 [] rfl (by decide))
  exact taskQueue_fifo_admission _ _ h8

/-! ## `file_handler.py`: the `FileHandler` class

Bytes are lists of byte values.  The external `magic.from_buffer`
detector is a parameter of type `Bytes → Option String`; `none` models
the library raising (the `try`/`except` in `detect_file_type` turns any
exception into `None`).  Timestamps (`datetime.now()`, `st_mtime`) are
integer seconds. -/

abbrev Bytes := List Nat

/-- `TEMP_DIR = Path("temp_files")`. -/
def TEMP_DIR : String := "temp_files"

/-- `FILE_EXPIRY_MINUTES = 10`. -/
def FILE_EXPIRY_MINUTES : Nat := 10

/-- `timedelta(minutes=FILE_EXPIRY_MINUTES)` in seconds. -/
def fileExpiryDelta : Int := (FILE_EXPIRY_MINUTES : Int) * 60

/-- `MAX_FILE_SIZE = 10 * 1024 * 1024`. -/
def MAX_FILE_SIZE : Nat := 10 * 1024 * 1024

/-- One on-disk file in `temp_files/`: its byte content and its
modification time (`st_mtime`), which is the time it was written. -/
structure DiskFile where
  content : Bytes
  mtime : Int
deriving DecidableEq

/-- The `TempFile` record of `file_handler.py`:
`expires_at = created_at + timedelta(minutes=FILE_EXPIRY_MINUTES)`. -/
structure TempFile where
  id : String
  original_name : String
  path : String
  size : Nat
  mime_type : String
  created_at : Int
  expires_at : Int
deriving DecidableEq

/-- The `ValidationResult` record of `file_handler.py`. -/
structure ValidationResult where
  valid : Bool
  detected_type : Option String
  error_message : Option String
deriving DecidableEq

/-- The `FileHandler`'s state: the in-memory index `self._files`
(a Python `dict`, i.e. an insertion-ordered association list with
unique keys) and the backing directory `temp_files/` (paths to disk
files). -/
structure FileHandler where
  files : List (String × TempFile)
  disk : List (String × DiskFile)
deriving DecidableEq

/-- A fresh `FileHandler()` over an empty directory. -/
def emptyHandler : FileHandler := FileHandler.mk [] []

/-- Python `dict` lookup on an association list: first match. -/
def lookupA {α : Type} : List (String × α) → String → Option α
  | [], _ => none
  | (k', v) :: rest, k => if k' = k then some v else lookupA rest k

/-- Python `dict` assignment `d[k] = v`: replace the existing entry in
place, else append. -/
def updateA {α : Type} : List (String × α) → String → α → List (String × α)
  | [], k, v => [(k, v)]
  | (k', v') :: rest, k, v =>
      if k' = k then (k, v) :: rest else (k', v') :: updateA rest k v

/-- Python `dict.pop(k)` / `os.unlink`: drop the entries with key `k`
(for the unique-key lists produced by `dict`, this is the one entry). -/
def eraseA {α : Type} (l : List (String × α)) (k : String) : List (String × α) :=
  l.filter (fun p => decide (p.1 ≠ k))

/-- Python truthiness of an `Optional[str]`: `None` and `""` are falsy. -/
def pyFalsyStr : Option String → Bool
  | none => true
  | some s => s.isEmpty

/-- Python `x or dflt` for `x : Optional[str]`. -/
def pyOrStr (v : Option String) (dflt : String) : String :=
  match v with
  | none => dflt
  | some s => if s.isEmpty then dflt else s

/-- `FileHandler.detect_file_type`: `magic.from_buffer(content, mime=True)`,
with any exception of the library turned into `None` (both are `none`
in the model, where the detector is the parameter `magic`). -/
def detect_file_type (magic : Bytes → Option String) (content : Bytes) :
    Option String :=
  magic content

/-- The f-string `f"文件大小超过限制 ({max_size // (1024*1024)}MB)"`. -/
def sizeLimitMessage (max_size : Nat) : String :=
  "文件大小超过限制 (" ++ toString (max_size / (1024 * 1024)) ++ "MB)"

/-- The message `"无法检测文件类型"`. -/
def unknownTypeMessage : String := "无法检测文件类型"

/-- The f-string `f"不支持的文件类型: {detected_type}"`. -/
def disallowedTypeMessage (t : String) : String := "不支持的文件类型: " ++ t

/-- `FileHandler.validate_file` (the `await file.read()` /
`file.seek(0)` pair is the read-only peek at `content`).  The Python
test `if not detected_type:` is true for `None` and for the empty
string, which the nested `match`/`if` reproduces. -/
def validate_file (magic : Bytes → Option String) (content : Bytes)
    (allowed_types : List String) (max_size : Nat) : ValidationResult :=
  if content.length > max_size then
    ValidationResult.mk false none (some (sizeLimitMessage max_size))
  else
    match detect_file_type magic content with
    | none => ValidationResult.mk false none (some unknownTypeMessage)
    | some t =>
      if t.isEmpty then ValidationResult.mk false none (some unknownTypeMessage)
      else if t ∉ allowed_types then
        ValidationResult.mk false (some t) (some (disallowedTypeMessage t))
      else ValidationResult.mk true (some t) none

/-- Position of the last `'.'` in a list of characters, if any. -/
def lastDotPos : List Char → Option Nat
  | [] => none
  | c :: rest =>
    match lastDotPos rest with
    | some i => some (i + 1)
    | none => if c = '.' then some 0 else none

/-- Splitting a character list at every occurrence of a separator. -/
def splitOnChar (c : Char) : List Char → List (List Char)
  | [] => [[]]
  | x :: rest =>
    if x = c then [] :: splitOnChar c rest
    else
      match splitOnChar c rest with
      | [] => [[x]]
      | y :: ys => (x :: y) :: ys

/-- The final path component, as in `pathlib.PurePath.name` (POSIX
separator). -/
def pathName (s : String) : String :=
  String.mk (((splitOnChar '/' s.toList).getLast?).getD [])

/-- `pathlib.PurePath.suffix`: with `i` the position of the last `'.'`
of the name, the slice `name[i:]` when `0 < i < len(name) - 1`, else
the empty string. -/
def pathSuffix (name : String) : String :=
  let cs := (pathName name).toList
  match lastDotPos cs with
  | none => ""
  | some i => if 0 < i ∧ i < cs.length - 1 then String.mk (cs.drop i) else ""

/-- `FileHandler.save_temp_file`.  The fresh `str(uuid.uuid4())` is the
parameter `file_id`; `now` is `datetime.now()` (also the written file's
`st_mtime`); `filename` is `file.filename` (`none` when absent).  The
method reads the content, detects the type with
`self.detect_file_type(content) or "application/octet-stream"`, keeps
the original extension, writes the bytes to
`TEMP_DIR / f"{file_id}{ext}"`, records the `TempFile` in
`self._files[file_id]`, and returns it — with no size or type check of
any kind. -/
def save_temp_file (h : FileHandler) (magic : Bytes → Option String)
    (file_id : String) (filename : Option String) (content : Bytes)
    (now : Int) : TempFile × FileHandler :=
  let mime_type := pyOrStr (detect_file_type magic content) "application/octet-stream"
  let original_name := pyOrStr filename "unknown"
  let ext := pathSuffix original_name
  let file_path := TEMP_DIR ++ "/" ++ file_id ++ ext
  let temp_file : TempFile :=
    { id := file_id, original_name := original_name, path := file_path,
      size := content.length, mime_type := mime_type,
      created_at := now, expires_at := now + fileExpiryDelta }
  (temp_file,
   { files := updateA h.files file_id temp_file,
     disk := updateA h.disk file_path (DiskFile.mk content now) })

/-- `FileHandler.get_temp_file`: returns the stored path when the index
has the id and the file still exists on disk (`temp_file.path.exists()`),
else `None`.  Note: no expiry check of any kind. -/
def get_temp_file (h : FileHandler) (file_id : String) : Option String :=
  match lookupA h.files file_id with
  | some temp_file =>
      if (lookupA h.disk temp_file.path).isSome then some temp_file.path else none
  | none => none

/-- Reading the bytes at a path of the backing directory. -/
def diskRead (h : FileHandler) (path : String) : Option Bytes :=
  (lookupA h.disk path).map DiskFile.content

/-- `FileHandler.delete_temp_file`: `self._files.pop(file_id, None)`
always drops the index entry when present; the disk file is unlinked
only when `temp_file.path.exists()`, and the return value is `True`
only in that case. -/
def delete_temp_file (h : FileHandler) (file_id : String) :
    Bool × FileHandler :=
  match lookupA h.files file_id with
  | none => (false, h)
  | some temp_file =>
    if (lookupA h.disk temp_file.path).isSome then
      (true, { files := eraseA h.files file_id,
               disk := eraseA h.disk temp_file.path })
    else
      (false, { files := eraseA h.files file_id, disk := h.disk })

/-- The list comprehension computing `expired_ids` in
`FileHandler.cleanup_expired`. -/
def expiredIds (h : FileHandler) (now : Int) : List String :=
  (h.files.filter (fun p => decide (p.2.expires_at < now))).map Prod.fst

/-- `FileHandler.cleanup_expired`: first pass calls
`delete_temp_file` on every id whose record has `expires_at < now`;
second pass scans `TEMP_DIR.iterdir()` and unlinks every file whose
modification time satisfies `now - mtime > timedelta(minutes=10)`
(i.e. keeps exactly those with `now - mtime ≤ 600`); the return value
is `len(expired_ids)` — the count of the first pass only. -/
def cleanup_expired (h : FileHandler) (now : Int) : Nat × FileHandler :=
  let expired_ids := expiredIds h now
  let h1 := expired_ids.foldl (fun acc fid => (delete_temp_file acc fid).2) h
  (expired_ids.length,
   { files := h1.files,
     disk := h1.disk.filter (fun p => decide (now - p.2.mtime ≤ fileExpiryDelta)) })

/-- One tick of the periodic `cleanup_task` loop: after the 60-second
sleep it invokes `file_handler.cleanup_expired()` and discards the
count. -/
def cleanup_tick (h : FileHandler) (now : Int) : FileHandler :=
  (cleanup_expired h now).2

/-! ### Association-list lemmas -/

theorem lookupA_updateA_self {α : Type} (l : List (String × α)) (k : String)
    (v : α) : lookupA (updateA l k v) k = some v := by
  induction l with
  | nil => simp [updateA, lookupA]
  | cons p rest ih =>
    obtain ⟨k', v'⟩ := p
    by_cases hk : k' = k
    · simp [updateA, hk, lookupA]
    · simp [updateA, hk, lookupA, ih]

theorem lookupA_eraseA_self {α : Type} (l : List (String × α)) (k : String) :
    lookupA (eraseA l k) k = none := by
  induction l with
  | nil => rfl
  | cons p rest ih =>
    obtain ⟨k', v'⟩ := p
    by_cases hk : k' = k
    · simpa [eraseA, List.filter_cons, hk] using ih
    · simpa [eraseA, List.filter_cons, lookupA, hk] using ih

theorem eraseA_eq_of_lookupA_none {α : Type} (l : List (String × α))
    (k : String) (h : lookupA l k = none) : eraseA l k = l := by
  induction l with
  | nil => rfl
  | cons p rest ih =>
    obtain ⟨k', v'⟩ := p
    simp only [lookupA] at h
    by_cases hk : k' = k
    · simp [hk] at h
    · rw [if_neg hk] at h
      simp [eraseA, List.filter_cons, hk] at ih ⊢
      exact ih h

theorem mem_of_lookupA_eq_some {α : Type} {l : List (String × α)} {k : String}
    {v : α} (h : lookupA l k = some v) : (k, v) ∈ l := by
  induction l with
  | nil => simp [lookupA] at h
  | cons p rest ih =>
    obtain ⟨k', v'⟩ := p
    simp only [lookupA] at h
    by_cases hk : k' = k
    · rw [if_pos hk] at h
      obtain rfl : v' = v := Option.some.inj h
      exact hk ▸ List.mem_cons_self _ _
    · rw [if_neg hk] at h
      exact List.mem_cons_of_mem _ (ih h)

theorem lookupA_filter_not_mem {α : Type} (l : List (String × α))
    (ids : List String) (k : String) (hk : k ∈ ids) :
    lookupA (l.filter (fun p => decide (p.1 ∉ ids))) k = none := by
  induction l with
  | nil => rfl
  | cons p rest ih =>
    obtain ⟨k', v'⟩ := p
    by_cases hmem : k' ∈ ids
    · simpa [List.filter_cons, hmem] using ih
    · have hne : k' ≠ k := fun he => hmem (he ▸ hk)
      simpa [List.filter_cons, hmem, lookupA, hne] using ih

/-! ### Lemmas about the sweep -/

/-- Whatever the disk holds, `delete_temp_file` drops the index entries
with the given key. -/
theorem delete_files_eq (h : FileHandler) (fid : String) :
    (delete_temp_file h fid).2.files = eraseA h.files fid := by
  unfold delete_temp_file
  cases hl : lookupA h.files fid with
  | none => exact (eraseA_eq_of_lookupA_none _ _ hl).symm
  | some tf =>
    by_cases hd : (lookupA h.disk tf.path).isSome
    · simp [hd]
    · simp [hd]

/-- The first pass of the sweep removes from the index exactly the
entries whose key is one of the ids it visits. -/
theorem foldl_delete_files (ids : List String) (h : FileHandler) :
    (ids.foldl (fun acc fid => (delete_temp_file acc fid).2) h).files
      = h.files.filter (fun p => decide (p.1 ∉ ids)) := by
  induction ids generalizing h with
  | nil => simp
  | cons a rest ih =>
    rw [List.foldl_cons, ih, delete_files_eq, eraseA, List.filter_filter]
    apply List.filter_congr
    intro p _
    by_cases h1 : p.1 = a <;> by_cases h2 : p.1 ∈ rest <;> simp [h1, h2]

/-- The index left by `cleanup_expired`: the entries whose key is not
among the expired ids. -/
theorem cleanup_files_characterization (h : FileHandler) (now : Int) :
    (cleanup_expired h now).2.files
      = h.files.filter (fun p => decide (p.1 ∉ expiredIds h now)) := by
  simp only [cleanup_expired]
  exact foldl_delete_files _ _

/-- A record found in the index whose expiry lies before `now` puts its
id on the sweep's list of expired ids. -/
theorem mem_expiredIds {h : FileHandler} {now : Int} {fid : String}
    {tf : TempFile} (hrec : lookupA h.files fid = some tf)
    (hexp : tf.expires_at < now) : fid ∈ expiredIds h now := by
  unfold expiredIds
  exact List.mem_map_of_mem _
    (List.mem_filter.mpr ⟨mem_of_lookupA_eq_some hrec, by simpa using hexp⟩)

/-! ### Claims about the file store -/

/-- The handler state obtained by saving one PDF at time 0: its record
expires at 600. -/
def c3Result : TempFile × FileHandler :=
  save_temp_file emptyHandler (fun _ => some "application/pdf") "f1"
    (some "a.pdf") [37, 80, 68, 70] 0

/-- C3 counterexample: `get_temp_file` performs no expiry check.  The
file saved at time 0 has `expires_at = 600 < 1000`, no sweep has run,
and resolving it (at any time, e.g. 1000 — the function does not even
take a clock) still returns the stored path instead of not-found. -/
theorem get_temp_file_serves_expired :
    c3Result.1.expires_at < 1000 ∧
      get_temp_file c3Result.2 c3Result.1.id = some c3Result.1.path := by
  constructor
  · decide
  · rfl

/-- C3 amended: an expired record is withheld only once a sweep has
run: after `cleanup_expired` at any time past its expiry,
`get_temp_file` on its id returns `none`. -/
theorem get_temp_file_after_sweep (h : FileHandler) (now : Int)
    (fid : String) (tf : TempFile) (hrec : lookupA h.files fid = some tf)
    (hexp : tf.expires_at < now) :
    get_temp_file (cleanup_expired h now).2 fid = none := by
  have hnone : lookupA (cleanup_expired h now).2.files fid = none := by
    rw [cleanup_files_characterization]
    exact lookupA_filter_not_mem _ _ _ (mem_expiredIds hrec hexp)
  simp [get_temp_file, hnone]

/-- An expired record over its on-disk file, for the C3 witness. -/
def c3wtf : TempFile :=
  TempFile.mk "e1" "a.pdf" "temp_files/e1.pdf" 1 "application/pdf" 0 600

/-- Handler holding `c3wtf` and its disk file. -/
def c3wState : FileHandler :=
  FileHandler.mk [("e1", c3wtf)] [("temp_files/e1.pdf", DiskFile.mk [1] 0)]

/-- Witness for the amended C3: the expired record `e1` resolves to
`none` after a sweep at time 1000. -/
theorem get_temp_file_after_sweep_witness :
    c3wtf.expires_at < 1000 ∧
      get_temp_file (cleanup_expired c3wState 1000).2 "e1" = none :=
  ⟨by decide, get_temp_file_after_sweep c3wState 1000 "e1" c3wtf (by decide) (by decide)⟩

/-- A directory holding one orphaned file (no index entry) whose
modification time is long past the TTL. -/
def c4State : FileHandler :=
  FileHandler.mk [] [("temp_files/orphan.pdf", DiskFile.mk [1, 2] 0)]

/-- C4 counterexample: sweeping `c4State` at time 1000 removes the
orphaned disk file (second pass), so the total removed by both passes is
1, but the function returns `len(expired_ids) = 0`: the return value
counts only the index pass. -/
theorem cleanup_count_ignores_disk_pass :
    (cleanup_expired c4State 1000).1 = 0 ∧
      (cleanup_expired c4State 1000).2.disk = [] ∧
      c4State.disk.length = 1 := by decide

/-- C4 amended: `cleanup_expired` deletes every indexed record with
`expires_at < now` and, separately, every backing-directory file whose
modification time is older than the TTL; its return value equals the
number of expired index records (the disk-pass removals are not
counted). -/
theorem cleanup_expired_spec (h : FileHandler) (now : Int) :
    (cleanup_expired h now).1
        = (h.files.filter (fun p => decide (p.2.expires_at < now))).length ∧
      (∀ p ∈ (cleanup_expired h now).2.files, ¬ p.2.expires_at < now) ∧
      (∀ p ∈ (cleanup_expired h now).2.disk,
        now - p.2.mtime ≤ fileExpiryDelta) := by
  refine ⟨?_, ?_, ?_⟩
  · simp [cleanup_expired, expiredIds]
  · intro p hp
    rw [cleanup_files_characterization] at hp
    obtain ⟨hmem, hdec⟩ := List.mem_filter.mp hp
    intro hexp
    exact (of_decide_eq_true hdec)
      (List.mem_map_of_mem _ (List.mem_filter.mpr ⟨hmem, by simpa using hexp⟩))
  · intro p hp
    simp only [cleanup_expired] at hp
    obtain ⟨hmem, hdec⟩ := List.mem_filter.mp hp
    simpa using hdec

/-- A handler with one expired and one fresh record, both files on
disk, for the C4 witness. -/
def c4wtfOld : TempFile :=
  TempFile.mk "old" "a.pdf" "temp_files/old.pdf" 1 "application/pdf" 0 600

/-- The fresh record of the C4 witness state. -/
def c4wtfNew : TempFile :=
  TempFile.mk "new" "b.pdf" "temp_files/new.pdf" 1 "application/pdf" 900 1500

/-- The C4 witness state. -/
def c4wState : FileHandler :=
  FileHandler.mk [("old", c4wtfOld), ("new", c4wtfNew)]
    [("temp_files/old.pdf", DiskFile.mk [1] 0),
     ("temp_files/new.pdf", DiskFile.mk [2] 900)]

/-- Witness for the amended C4: sweeping `c4wState` at time 1000
returns 1 (one expired record) and keeps the fresh record, which is not
expired. -/
theorem cleanup_expired_spec_witness :
    (cleanup_expired c4wState 1000).1 = 1 ∧
      ¬ ("new", c4wtfNew).2.expires_at < 1000 := by
  have hs := cleanup_expired_spec c4wState 1000
  exact ⟨hs.1.trans (by decide), hs.2.1 ("new", c4wtfNew) (by decide)⟩

/-- C5: `validate_file` with bound `max_size` fails with the too-large
message on every input longer than `max_size`; fails with the
unknown-type message when detection yields no type; fails with the
disallowed-type message, carrying the detected type, when the detected
type is not allowed; and otherwise succeeds carrying the detected type.
(The detector is assumed not to return `some ""`, which the Python
truthiness test would conflate with a failed detection; `libmagic`'s
MIME strings are never empty.) -/
theorem validate_file_spec (magic : Bytes → Option String) (content : Bytes)
    (allowed_types : List String) (max_size : Nat) :
    (content.length > max_size →
      validate_file magic content allowed_types max_size
        = ValidationResult.mk false none (some (sizeLimitMessage max_size))) ∧
      (content.length ≤ max_size → magic content = none →
        validate_file magic content allowed_types max_size
          = ValidationResult.mk false none (some unknownTypeMessage)) ∧
      (∀ t, content.length ≤ max_size → magic content = some t → t ≠ "" →
        t ∉ allowed_types →
        validate_file magic content allowed_types max_size
          = ValidationResult.mk false (some t) (some (disallowedTypeMessage t))) ∧
      (∀ t, content.length ≤ max_size → magic content = some t → t ≠ "" →
        t ∈ allowed_types →
        validate_file magic content allowed_types max_size
          = ValidationResult.mk true (some t) none) := by
  refine ⟨?_, ?_, ?_, ?_⟩
  · intro hgt
    simp [validate_file, hgt]
  · intro hle hm
    simp [validate_file, detect_file_type, hm, Nat.not_lt.mpr hle]
  · intro t hle hm ht hmem
    have hempty : t.isEmpty = false := by
      cases hi : t.isEmpty
      · rfl
      · exact absurd ((String.isEmpty_iff t).mp hi) ht
    simp [validate_file, detect_file_type, hm, Nat.not_lt.mpr hle, hempty, hmem]
  · intro t hle hm ht hmem
    have hempty : t.isEmpty = false := by
      cases hi : t.isEmpty
      · rfl
      · exact absurd ((String.isEmpty_iff t).mp hi) ht
    simp [validate_file, detect_file_type, hm, Nat.not_lt.mpr hle, hempty, hmem]

/-- Witness for C5: a 3-byte input detected as `image/png` against an
allow-list holding only `application/pdf` fails carrying the detected
type. -/
theorem validate_file_spec_witness :
    validate_file (fun _ => some "image/png") [1, 2, 3] ["application/pdf"] 10
      = ValidationResult.mk false (some "image/png")
          (some (disallowedTypeMessage "image/png")) :=
  (validate_file_spec (fun _ => some "image/png") [1, 2, 3]
      ["application/pdf"] 10).2.2.1 "image/png" (by decide) rfl (by decide)
    (by decide)

/-- C6: `save_temp_file` followed immediately by `get_temp_file` on the
returned record's id yields the stored path, and the bytes on disk at
that path are exactly the saved content — for every input, every
detector, and every prior handler state. -/
theorem save_then_get_roundtrip (h : FileHandler)
    (magic : Bytes → Option String) (file_id : String)
    (filename : Option String) (content : Bytes) (now : Int) :
    get_temp_file (save_temp_file h magic file_id filename content now).2
        (save_temp_file h magic file_id filename content now).1.id
      = some (save_temp_file h magic file_id filename content now).1.path ∧
      diskRead (save_temp_file h magic file_id filename content now).2
          (save_temp_file h magic file_id filename content now).1.path
        = some content := by
  constructor
  · simp [save_temp_file, get_temp_file, lookupA_updateA_self]
  · simp [save_temp_file, diskRead, lookupA_updateA_self, DiskFile.content]

/-- C7: a record whose on-disk file is already gone (`hgone`) does not
abort the sweep: `delete_temp_file` pre-checks existence and has no
failure path, so `cleanup_expired` still removes every expired index
record (including every other one) and still clears every
backing-directory file older than the TTL. -/
theorem cleanup_survives_missing_file (h : FileHandler) (now : Int)
    (fid : String) (tf : TempFile) (hrec : lookupA h.files fid = some tf)
    (hgone : lookupA h.disk tf.path = none) (hexp : tf.expires_at < now) :
    (∀ fid' tf', lookupA h.files fid' = some tf' → tf'.expires_at < now →
        lookupA (cleanup_expired h now).2.files fid' = none) ∧
      (∀ p ∈ (cleanup_expired h now).2.disk,
        now - p.2.mtime ≤ fileExpiryDelta) := by
  constructor
  · intro fid' tf' hrec' hexp'
    rw [cleanup_files_characterization]
    exact lookupA_filter_not_mem _ _ _ (mem_expiredIds hrec' hexp')
  · intro p hp
    simp only [cleanup_expired] at hp
    obtain ⟨hmem, hdec⟩ := List.mem_filter.mp hp
    simpa using hdec

/-- Expired record of the C7 witness whose disk file is missing. -/
def c7tfa : TempFile :=
  TempFile.mk "a" "a.pdf" "temp_files/a.pdf" 1 "application/pdf" 0 600

/-- Expired record of the C7 witness whose disk file is present. -/
def c7tfb : TempFile :=
  TempFile.mk "b" "b.pdf" "temp_files/b.pdf" 1 "application/pdf" 0 600

/-- The C7 witness state: record `a`'s file is already gone; record
`b`'s file and an old orphan are on disk. -/
def c7State : FileHandler :=
  FileHandler.mk [("a", c7tfa), ("b", c7tfb)]
    [("temp_files/b.pdf", DiskFile.mk [2] 0),
     ("temp_files/orphan.bin", DiskFile.mk [3] 100)]

/-- Witness for C7: although record `a`'s file is already gone, the
sweep at time 1000 still removes the other expired record `b`. -/
theorem cleanup_survives_missing_file_witness :
    lookupA c7State.disk c7tfa.path = none ∧
      lookupA (cleanup_expired c7State 1000).2.files "b" = none :=
  ⟨by decide,
    (cleanup_survives_missing_file c7State 1000 "a" c7tfa (by decide)
        (by decide) (by decide)).1 "b" c7tfb (by decide) (by decide)⟩

/-- A stale index entry: the record is indexed but its file is not on
disk (the spec's "file vanished, e.g. manually deleted" scenario). -/
def c8tf : TempFile :=
  TempFile.mk "x" "n.pdf" "temp_files/x.pdf" 2 "application/pdf" 0 600

/-- Handler holding the stale entry `c8tf` over an empty directory. -/
def c8State : FileHandler := FileHandler.mk [("x", c8tf)] []

/-- C8 counterexample: deleting the stale entry `x` does remove
something — the index entry (`files` goes from one entry to none) — yet
`delete_temp_file` returns `False`, so the return value is not "whether
something was actually removed". -/
theorem delete_returns_false_despite_removing_entry :
    (delete_temp_file c8State "x").1 = false ∧
      (delete_temp_file c8State "x").2.files = [] ∧
      c8State.files.length = 1 := by decide

/-- C8 amended: `delete_temp_file` removes the index entry (if any) and
the on-disk file (if present); it returns `True` exactly when the
record existed and its file was still on disk (i.e. whether the on-disk
file was removed — a stale index entry is dropped silently with return
`False`); it never raises; and it is idempotent: a second call on the
same id returns `False`. -/
theorem delete_temp_file_spec (h : FileHandler) (fid : String) :
    ((delete_temp_file h fid).1 = true ↔
        ∃ tf, lookupA h.files fid = some tf ∧
          (lookupA h.disk tf.path).isSome = true) ∧
      lookupA (delete_temp_file h fid).2.files fid = none ∧
      (∀ tf, lookupA h.files fid = some tf →
        lookupA (delete_temp_file h fid).2.disk tf.path = none) ∧
      (delete_temp_file (delete_temp_file h fid).2 fid).1 = false := by
  have hsecond : ∀ h' : FileHandler, lookupA h'.files fid = none →
      (delete_temp_file h' fid).1 = false := by
    intro h' hn
    simp [delete_temp_file, hn]
  cases hl : lookupA h.files fid with
  | none =>
    refine ⟨?_, ?_, ?_, ?_⟩
    · simp [delete_temp_file, hl]
    · simp [delete_temp_file, hl]
    · intro tf htf
      exact Option.noConfusion htf
    · exact hsecond _ (by simp [delete_temp_file, hl])
  | some tf =>
    have hfiles : (delete_temp_file h fid).2.files = eraseA h.files fid :=
      delete_files_eq h fid
    have hnone : lookupA (delete_temp_file h fid).2.files fid = none := by
      rw [hfiles]
      exact lookupA_eraseA_self _ _
    refine ⟨?_, hnone, ?_, hsecond _ hnone⟩
    · by_cases hd : (lookupA h.disk tf.path).isSome
      · have h1 : (delete_temp_file h fid).1 = true := by
          simp [delete_temp_file, hl, hd]
        rw [h1]
        exact ⟨fun _ => ⟨tf, rfl, hd⟩, fun _ => rfl⟩
      · have h1 : (delete_temp_file h fid).1 = false := by
          simp [delete_temp_file, hl, hd]
        rw [h1]
        constructor
        · intro hcontr
          exact Bool.noConfusion hcontr
        · rintro ⟨tf', htf', hd'⟩
          obtain rfl : tf = tf' := Option.some.inj htf'
          exact absurd hd' hd
    · intro tf' htf'
      obtain rfl : tf = tf' := Option.some.inj htf'
      by_cases hd : (lookupA h.disk tf.path).isSome
      · have h2 : (delete_temp_file h fid).2.disk = eraseA h.disk tf.path := by
          simp [delete_temp_file, hl, hd]
        rw [h2]
        exact lookupA_eraseA_self _ _
      · have h2 : (delete_temp_file h fid).2.disk = h.disk := by
          simp [delete_temp_file, hl, hd]
        rw [h2]
        cases ho : lookupA h.disk tf.path with
        | none => rfl
        | some d =>
          rw [ho] at hd
          exact absurd rfl hd

/-- Record of the C8 witness: indexed with its file on disk. -/
def c8wtf : TempFile :=
  TempFile.mk "y" "y.png" "temp_files/y.png" 1 "image/png" 0 600

/-- The C8 witness state. -/
def c8wState : FileHandler :=
  FileHandler.mk [("y", c8wtf)] [("temp_files/y.png", DiskFile.mk [9] 0)]

/-- Witness for the amended C8: deleting an existing file returns
`True`; deleting it again returns `False`. -/
theorem delete_temp_file_spec_witness :
    (delete_temp_file c8wState "y").1 = true ∧
      (delete_temp_file (delete_temp_file c8wState "y").2 "y").1 = false := by
  have hs := delete_temp_file_spec c8wState "y"
  exact ⟨hs.1.mpr ⟨c8wtf, by decide, by decide⟩, hs.2.2.2⟩

/-- C10: `save_temp_file` never rejects: for every content (of any
length, in particular above `MAX_FILE_SIZE`) and every detector outcome
(in particular a type outside every allow-list), it records the file in
the index, writes the bytes to disk, and returns the record; when
detection fails (Python-falsy result) the record's `mime_type` is
`"application/octet-stream"` instead of an error.  Size and type limits
are enforced only by the separate `validate_file`. -/
theorem save_temp_file_total_spec (h : FileHandler)
    (magic : Bytes → Option String) (file_id : String)
    (filename : Option String) (content : Bytes) (now : Int) :
    (save_temp_file h magic file_id filename content now).1.size
        = content.length ∧
      lookupA (save_temp_file h magic file_id filename content now).2.files
          file_id
        = some (save_temp_file h magic file_id filename content now).1 ∧
      diskRead (save_temp_file h magic file_id filename content now).2
          (save_temp_file h magic file_id filename content now).1.path
        = some content ∧
      (pyFalsyStr (magic content) = true →
        (save_temp_file h magic file_id filename content now).1.mime_type
          = "application/octet-stream") := by
  refine ⟨rfl, ?_, ?_, ?_⟩
  · simp [save_temp_file, lookupA_updateA_self]
  · simp [save_temp_file, diskRead, lookupA_updateA_self, DiskFile.content]
  · intro hf
    show pyOrStr (detect_file_type magic content) "application/octet-stream"
      = "application/octet-stream"
    unfold detect_file_type pyOrStr
    cases hm : magic content with
    | none => rfl
    | some s =>
      rw [hm] at hf
      simp only [pyFalsyStr] at hf
      simp [hf]

/-- Witness for C10: a detector that fails on an input of 20 MB (twice
`MAX_FILE_SIZE`) still gets stored, with the octet-stream fallback
type. -/
theorem save_temp_file_total_spec_witness :
    pyFalsyStr ((fun _ => (none : Option String)) ([] : Bytes)) = true ∧
      (save_temp_file emptyHandler (fun _ => none) "w1" none
          (List.replicate (2 * MAX_FILE_SIZE) 0) 5).1.mime_type
        = "application/octet-stream" := by
  have hs := save_temp_file_total_spec emptyHandler (fun _ => none) "w1" none
    (List.replicate (2 * MAX_FILE_SIZE) 0) 5
  exact ⟨rfl, hs.2.2.2 rfl⟩

end ToolsSpec
